import Mathlib

/-!
# Verification of the express-mvc-router route-synthesis core

Shallow embedding of `src/index.js` (class `ExpressMVCRouter`): JS values and
objects with truthiness, the implicit-method name resolver, the
parameter-name extractor (the anchored signature regex), the two
route-synthesis variants (`setObjectActions` / `setFunctionActions`), the
per-instance context-wrapper cache of `addRoute`, and the per-request
`render` helper built inside `addRoute`.
-/

set_option autoImplicit false

namespace ExpressMVCRouter

/-- Model of a JS value, as far as the router observes one: `undefined`,
`null`, booleans, numbers, strings, and opaque object references
(identified by a `Nat`; JS object equality `===` is identity). -/
inductive JSValue where
  | undefined
  | null
  | bool (b : Bool)
  | num (n : Int)
  | str (s : String)
  | obj (id : Nat)
  deriving DecidableEq, Repr

/-- JS truthiness of a value (`if (v)`); `NaN` is not modelled. -/
def JSValue.truthy : JSValue → Bool
  | .undefined => false
  | .null => false
  | .bool b => b
  | .num n => n != 0
  | .str s => s != ""
  | .obj _ => true

/-- A JS plain object as an insertion-ordered association list of
enumerable properties (JS own-property keys are unique). -/
abbrev JSObj := List (String × JSValue)

/-- Property read `o[k]`: the value of the first entry with key `k`,
`undefined` when absent. -/
def objGet : JSObj → String → JSValue
  | [], _ => .undefined
  | (k, v) :: rest, key => if k = key then v else objGet rest key

/-- Property write `o[k] = v`: updates the entry in place when the key
exists (JS keeps insertion order), otherwise appends it. -/
def objSet : JSObj → String → JSValue → JSObj
  | [], key, v => [(key, v)]
  | (k, w) :: rest, key, v =>
      if k = key then (k, v) :: rest else (k, w) :: objSet rest key v

/-- JS `\s` whitespace (ASCII subset; the source only ever meets ASCII
identifiers). -/
def isJsWs (c : Char) : Bool :=
  c = ' ' || c = '\t' || c = '\n' || c = '\r' || c = '\x0b' || c = '\x0c'

/-- JS `\w` word character: `[A-Za-z0-9_]`. -/
def isJsWordChar (c : Char) : Bool :=
  c.isAlphanum || c = '_'

/-- `s.replace(/^\s+|\s+$/g, '')` (and `String.prototype.trim`): strip
leading and trailing whitespace. -/
def jsTrim (s : String) : String :=
  String.mk (((s.data.dropWhile isJsWs).reverse.dropWhile isJsWs).reverse)

/-- `s.charAt(0).toLowerCase() + s.substr(1)` as used on the remainder of a
stripped action name; the empty string maps to itself. -/
def lowerFirst (s : String) : String :=
  match s.data with
  | [] => ""
  | c :: rest => String.mk (c.toLower :: rest)

/-- `name.charAt(0) !== '_'` negated: does the name start with the hidden
marker?  (`''.charAt(0)` is `''`, so the empty name is not hidden.) -/
def startsUnderscore (s : String) : Bool :=
  match s.data with
  | '_' :: _ => true
  | _ => false

/-- Lower-case a whole string, `String.prototype.toLowerCase` on ASCII. -/
def strToLower (s : String) : String :=
  String.mk (s.data.map Char.toLower)

/-- Drop the first `n` characters of a string (the effect of
`replace(/^prefix/, '')` once the `n`-character prefix matched). -/
def dropChars (s : String) (n : Nat) : String :=
  String.mk (s.data.drop n)

/-! ## Action naming resolver (`implicitMethodPattern`, `getMethod`,
lines 80–88 / 105–113 of `src/index.js`) -/

/-- The alternation of `implicitMethodPattern = /^(get|post|put|patch|delete)/`,
in source order.  The pattern has no `i` flag: matching is case-sensitive. -/
def httpVerbs : List String := ["get", "post", "put", "patch", "delete"]

/-- `implicitMethodPattern.exec(name)`: the verb token the name starts
with, if any (anchored, case-sensitive). -/
def matchVerbPrefix (s : String) : Option String :=
  httpVerbs.find? (fun v => v.data.isPrefixOf s.data)

/-- `getMethod(pathName, false)`: the matched token lower-cased, `'get'`
when the pattern does not match. -/
def getMethod (pathName : String) : String :=
  match matchVerbPrefix pathName with
  | some v => strToLower v
  | none => "get"

/-- Lines 82–88 / 107–113: the bare action name.  `'index'` is rewritten to
the empty string first; then a matching verb prefix is stripped and the new
first character of a non-empty remainder is lower-cased. -/
def resolveBareName (trimmed : String) : String :=
  let p := if trimmed = "index" then "" else trimmed
  match matchVerbPrefix p with
  | some v =>
      let r := dropChars p v.length
      if r = "" then r else lowerFirst r
  | none => p

/-! ## Parameter extractor (`getParameterNames`, lines 137–141)

The source matches `fn.toString()` against the anchored regex
`/^(\s*function\s+)?(?:\w*\s*)?\((.*?)\)/` and, on success, trims and
splits the second capture group on `/\s*,\s*/`.  The matcher below is that
regex specialised: the lazy `(.*?)` takes the text up to the first `)`
(failing on a line terminator, which `.` does not match), and the greedy
`\w*`/`\s*`/`\s+` pieces are deterministic here because the character
classes are disjoint from the literals that follow them. -/

/-- The lazy group `(.*?)` followed by `\)`: the characters before the
first `)`, failing if a line terminator intervenes or no `)` exists. -/
def takeUntilClose : List Char → Option (List Char)
  | [] => none
  | c :: rest =>
      if c = ')' then some []
      else if c = '\n' ∨ c = '\r' then none
      else (takeUntilClose rest).map (c :: ·)

/-- `(?:\w*\s*)?\((.*?)\)`: skip word characters, then whitespace, then
require `(` and read the lazy group. -/
def afterG2 (l : List Char) : Option (List Char) :=
  match (l.dropWhile isJsWordChar).dropWhile isJsWs with
  | '(' :: rest => takeUntilClose rest
  | _ => none

/-- The optional first group `(\s*function\s+)?` followed by the rest of
the pattern; `none` when this alternative fails (the regex then backtracks
to the group being absent). -/
def g1Present (l : List Char) : Option (List Char) :=
  let l1 := l.dropWhile isJsWs
  if "function".data.isPrefixOf l1 then
    match l1.drop "function".length with
    | c :: rest => if isJsWs c then afterG2 (rest.dropWhile isJsWs) else none
    | [] => none
  else none

/-- The whole signature pattern: group present first, else absent. -/
def sigMatchInner (l : List Char) : Option (List Char) :=
  match g1Present l with
  | some inner => some inner
  | none => afterG2 l

/-- `inner.split(',')` at the character level; splitting the empty string
yields one empty piece, as `String.prototype.split` does. -/
def splitOnComma : List Char → List (List Char)
  | [] => [[]]
  | c :: rest =>
      if c = ',' then [] :: splitOnComma rest
      else
        match splitOnComma rest with
        | t :: ts => (c :: t) :: ts
        | [] => [[c]]

/-- `getParameterNames(fn)` on `fn.toString()`: `none` when the regex does
not match, `some []` when the capture group is empty, otherwise the group
trimmed and split on `/\s*,\s*/` (equal to splitting on `,` and trimming
each piece, since the group was trimmed first). -/
def getParameterNames (src : String) : Option (List String) :=
  match sigMatchInner src.data with
  | none => none
  | some inner =>
      if inner.isEmpty then some []
      else some ((splitOnComma (jsTrim (String.mk inner)).data).map
        (fun t => jsTrim (String.mk t)))

/-! ## Route synthesis (`setObjectActions`, `setFunctionActions`,
`loadImplicitRoutes`, lines 63–124) -/

/-- One step of `pathName += (pathName ? '/' : '') + ':' + args[i]`. -/
def paramStep (p a : String) : String :=
  p ++ (if p = "" then "" else "/") ++ ":" ++ a

/-- Lines 90–94 / 115–119: append one capture segment per parameter name,
in order; a `null` parameter list appends nothing. -/
def appendParams (pathName : String) (args : Option (List String)) : String :=
  match args with
  | none => pathName
  | some l => l.foldl paramStep pathName

/-- Lines 96 / 120: a controller literally named `'default'` contributes an
empty path segment. -/
def normalizeControllerName (cn : String) : String :=
  if cn = "default" then "" else cn

/-- `controllerName + (pathName ? '/' + pathName : '')`. -/
def joinControllerPath (cn pathName : String) : String :=
  cn ++ (if pathName = "" then "" else "/" ++ pathName)

/-- Line 192: the router mounts `'/' + path.replace(/^\/+/, '')`. -/
def registeredPath (p : String) : String :=
  "/" ++ String.mk (p.data.dropWhile (· = '/'))

/-- A callable, as far as route synthesis observes it: its source text
(`fn.toString()`). -/
structure JSFunction where
  src : String
  deriving DecidableEq, Repr

/-- A property value of a controller definition: a callable or a plain
value (`typeof instance[name] === 'function'` distinguishes them). -/
inductive JSProp where
  | func (f : JSFunction)
  | value (v : JSValue)
  deriving DecidableEq, Repr

/-- `typeof p === 'function'`. -/
def isFuncProp : JSProp → Bool
  | .func _ => true
  | .value _ => false

/-- The arguments `addRoute` receives for one action (`routeData[0..6]`);
`instanceId` is the identity of `routeData[5]` and `controllerNameArg` is
`routeData[6]` (`undefined` when `addRoute` was called with six arguments). -/
structure RouteDescriptor where
  method : String
  path : String
  viewBaseName : String
  actionName : String
  args : Option (List String)
  instanceId : Nat
  controllerNameArg : JSValue
  deriving DecidableEq, Repr

/-- Lines 78–97, the body of the `setObjectActions` loop for one eligible
property: trim the raw name, resolve the method, resolve the bare name,
extract parameters, append capture segments, and join with the normalized
controller name.  `setObjectActions` passes no seventh argument to
`addRoute`, so `routeData[6]` is `undefined`. -/
def buildObjAction (controllerName viewBaseName actionName src : String)
    (instId : Nat) : RouteDescriptor :=
  let trimmed := jsTrim actionName
  { method := getMethod trimmed
    path := joinControllerPath (normalizeControllerName controllerName)
      (appendParams (resolveBareName trimmed) (getParameterNames src))
    viewBaseName := viewBaseName
    actionName := actionName
    args := getParameterNames src
    instanceId := instId
    controllerNameArg := JSValue.undefined }

/-- Lines 103–121, the same loop body in `setFunctionActions`; here the
normalized controller name is passed as the seventh `addRoute` argument. -/
def buildFnAction (controllerName viewBaseName actionName src : String)
    (instId : Nat) : RouteDescriptor :=
  let trimmed := jsTrim actionName
  { method := getMethod trimmed
    path := joinControllerPath (normalizeControllerName controllerName)
      (appendParams (resolveBareName trimmed) (getParameterNames src))
    viewBaseName := viewBaseName
    actionName := actionName
    args := getParameterNames src
    instanceId := instId
    controllerNameArg := JSValue.str (normalizeControllerName controllerName) }

/-- `setObjectActions`: `for (let actionName in allActions)` over the
definition object's enumerable properties, keeping function-valued
properties whose name does not start with `'_'`. -/
def setObjectActions (controllerName viewBaseName : String) (instId : Nat)
    (props : List (String × JSProp)) : List RouteDescriptor :=
  props.filterMap fun p =>
    match p.2 with
    | .func f =>
        if startsUnderscore p.1 then none
        else some (buildObjAction controllerName viewBaseName p.1 f.src instId)
    | .value _ => none

/-- A flat (object) controller definition: the exported object, with its
JS identity. -/
structure ObjControllerDef where
  id : Nat
  props : List (String × JSProp)

/-- Lines 65–68: in the object variant the shared instance is the
definition object itself (`instance = allActions = controller`). -/
def loadImplicitRoutesObject (controllerName viewBaseName : String)
    (d : ObjControllerDef) : List RouteDescriptor :=
  setObjectActions controllerName viewBaseName d.id d.props

/-- A class-like controller definition: the own properties of
`controller.prototype` (method names plus `'constructor'`). -/
structure ClassDef where
  protoProps : List (String × JSProp)

/-- Line 70–71: `Object.getOwnPropertyNames(controller.prototype)` filtered
of `'constructor'` and names starting with `'_'`. -/
def classActionNames (c : ClassDef) : List String :=
  (c.protoProps.map Prod.fst).filter
    (fun x => x != "constructor" && !startsUnderscore x)

/-- `instance[actionName]` on a fresh instance resolves through the
prototype (the constructors in scope install no shadowing own
properties). -/
def protoLookup (c : ClassDef) (n : String) : Option JSProp :=
  (c.protoProps.find? (fun p => p.1 == n)).map Prod.snd

/-- `setFunctionActions` over a given action-name list: keep the names
bound to functions and not starting with `'_'`. -/
def setFunctionActions (controllerName viewBaseName : String) (instId : Nat)
    (c : ClassDef) (allActions : List String) : List RouteDescriptor :=
  allActions.filterMap fun actionName =>
    match protoLookup c actionName with
    | some (.func f) =>
        if startsUnderscore actionName then none
        else some (buildFnAction controllerName viewBaseName actionName f.src instId)
    | _ => none

/-- Lines 70–73: the class variant constructs one instance at load time
(`instId` names its identity) and synthesizes from the filtered prototype
names. -/
def loadImplicitRoutesClass (controllerName viewBaseName : String)
    (c : ClassDef) (instId : Nat) : List RouteDescriptor :=
  setFunctionActions controllerName viewBaseName instId c (classActionNames c)

/-! ## Registrar: the context-wrapper cache (`addRoute`, lines 143–183) -/

/-- `this.classesLoaded` plus a supply of fresh wrapper identities: each
entry pairs a controller-instance identity with the identity of the wrapper
type generated for it. -/
structure RegState where
  classesLoaded : List (Nat × Nat)
  nextWrapper : Nat
  deriving DecidableEq, Repr

/-- Lines 144–152 and 180–183: look the instance up by identity
(`filter(item => item.instance === routeData[5])`, first hit); on a miss,
generate a wrapper type and push the pair.  Returns the new state and the
wrapper used for this registration.  Nothing ever removes an entry. -/
def addRouteWrapper (st : RegState) (instId : Nat) : RegState × Nat :=
  match st.classesLoaded.find? (fun it => it.1 == instId) with
  | some it => (st, it.2)
  | none =>
      ({ classesLoaded := st.classesLoaded ++ [(instId, st.nextWrapper)],
         nextWrapper := st.nextWrapper + 1 }, st.nextWrapper)

/-! ## Dispatch wrapper and `render` (lines 153–191) -/

/-- Line 186–188: `actionArgs = (routeData[4] || []).map(arg => req.params[arg])`
— the positional arguments for the action, read from the captured path
values in declaration order. -/
def dispatchArgs (args : Option (List String)) (reqParams : String → JSValue) :
    List JSValue :=
  (args.getD []).map reqParams

/-- What the `render` closure captures: `actionName` and `viewBaseName`
(constructor arguments taken from `routeData[3]` and `routeData[2]`),
`routeData[6]`, and from the request its `session` and optional `flash`
reader (`this.req.flash !== undefined` is the capability probe). -/
structure RenderEnv where
  actionName : String
  viewBaseName : String
  controllerNameArg : JSValue
  session : JSValue
  flash : Option (String → JSValue)

/-- The environment the dispatch wrapper hands to `render` for a given
registered route and request. -/
def dispatchRenderEnv (d : RouteDescriptor) (session : JSValue)
    (flash : Option (String → JSValue)) : RenderEnv :=
  { actionName := d.actionName
    viewBaseName := d.viewBaseName
    controllerNameArg := d.controllerNameArg
    session := session
    flash := flash }

/-- `arguments[0]` of a `render` call, as the code inspects it:
absent/undefined, a string, or a data object. -/
inductive RenderArg0 where
  | undef
  | str (s : String)
  | obj (o : JSObj)

/-- `arguments[1]` of a `render` call: absent/undefined or a data object. -/
inductive RenderArg1 where
  | undef
  | obj (o : JSObj)

/-- Lines 169–177 of the `render` closure: fill `controllerName` /
`actionName` / `session` when the present value is falsy
(`if (!data.controllerName) ...`), then, when the request has a flash
reader, unconditionally overwrite `success` / `error` / `info` with its
values for those keys. -/
def renderFill (env : RenderEnv) (data0 : JSObj) : JSObj :=
  let data := if (objGet data0 "controllerName").truthy then data0
    else objSet data0 "controllerName" env.controllerNameArg
  let data := if (objGet data "actionName").truthy then data
    else objSet data "actionName" (JSValue.str env.actionName)
  let data := if (objGet data "session").truthy then data
    else objSet data "session" env.session
  match env.flash with
  | some f =>
      objSet (objSet (objSet data "success" (f "success"))
        "error" (f "error")) "info" (f "info")
  | none => data

/-- Lines 158–179, the `render` closure: choose view name and data from
the arguments (`viewName = arguments[0] || viewName`, so an empty string
also falls back; an object first argument is the data), run the fill and
flash block, and call the collaborator's renderer with
`viewBaseName + '/' + viewName`.  Returns that path and the final data
object. -/
def render (env : RenderEnv) (a0 : RenderArg0) (a1 : RenderArg1) :
    String × JSObj :=
  let vd : String × JSObj :=
    match a0 with
    | .str s => (if s = "" then env.actionName else s,
                 match a1 with
                 | .obj o => o
                 | .undef => [])
    | .obj o => (env.actionName, o)
    | .undef => (env.actionName, [])
  (env.viewBaseName ++ "/" ++ vd.1, renderFill env vd.2)

/-! ## Spec-side reading used only to refute claim wording -/

/-- The claim's reading of the verb prefix: **case-insensitive** matching
of the tokens, which the source pattern (no `i` flag) does not do. -/
def caseInsensitiveVerbPrefix (s : String) : Option String :=
  httpVerbs.find? (fun v => v.data.isPrefixOf (strToLower s).data)

/-- Path join used to state the segment structure of synthesized paths. -/
def joinSegments : List String → String
  | [] => ""
  | [s] => s
  | s :: rest => s ++ "/" ++ joinSegments rest

/-! ## Helper lemmas -/

theorem objGet_objSet_same (o : JSObj) (k : String) (v : JSValue) :
    objGet (objSet o k v) k = v := by
  induction o with
  | nil => simp [objSet, objGet]
  | cons hd tl ih =>
      by_cases h : hd.1 = k
      · simp [objSet, objGet, h]
      · simpa [objSet, objGet, h] using ih

theorem objGet_objSet_ne (o : JSObj) (k k' : String) (v : JSValue)
    (h : k ≠ k') : objGet (objSet o k v) k' = objGet o k' := by
  induction o with
  | nil => simp [objSet, objGet, h]
  | cons hd tl ih =>
      by_cases hk : hd.1 = k
      · simp [objSet, objGet, hk, h]
      · by_cases hk' : hd.1 = k'
        · simp [objSet, objGet, hk, hk', Ne.symm h]
        · simpa [objSet, objGet, hk, hk'] using ih

theorem find?_append_some {α : Type} (p : α → Bool) (l₁ l₂ : List α)
    (w : α) (h : l₁.find? p = some w) : (l₁ ++ l₂).find? p = some w := by
  simp [List.find?_append, h]

theorem find?_append_none {α : Type} (p : α → Bool) (l₁ l₂ : List α)
    (h : l₁.find? p = none) : (l₁ ++ l₂).find? p = l₂.find? p := by
  simp [List.find?_append, h]

theorem paramStep_ne_empty (p a : String) : paramStep p a ≠ "" := by
  intro h
  have hd := congrArg String.data h
  simp [paramStep, String.data_append] at hd

theorem paramStep_not_empty_eq (p a : String) (h : p ≠ "") :
    paramStep p a = p ++ "/" ++ ":" ++ a := by
  simp [paramStep, h]

theorem paramStep_empty_eq (a : String) : paramStep "" a = ":" ++ a := by
  apply String.ext
  simp [paramStep, String.data_append]

theorem foldl_paramStep (ps : List String) :
    ∀ p : String, p ≠ "" →
      List.foldl paramStep p ps = joinSegments (p :: ps.map (fun a => ":" ++ a)) := by
  induction ps with
  | nil => intro p _; rfl
  | cons a ps ih =>
      intro p hp
      have hstep : paramStep p a = p ++ "/" ++ ":" ++ a :=
        paramStep_not_empty_eq p a hp
      have hne : p ++ "/" ++ ":" ++ a ≠ "" := by
        rw [← hstep]; exact paramStep_ne_empty p a
      rw [List.foldl_cons, hstep, ih _ hne, List.map_cons]
      cases hm : ps.map (fun a => ":" ++ a) with
      | nil =>
          apply String.ext
          simp [joinSegments, String.data_append, List.append_assoc]
      | cons x xs =>
          apply String.ext
          simp [joinSegments, String.data_append, List.append_assoc]

theorem colon_append_ne_empty (a : String) : ":" ++ a ≠ "" := by
  intro h
  have hd := congrArg String.data h
  simp [String.data_append] at hd

/-! ## Claim theorems -/

/-- C7: for declared parameter names `[p1, ..., pn]`, the synthesized path
is the `/`-join of the bare-name segment (when non-empty) followed by
exactly one capture segment `:pi` per name in declaration order, and the
dispatch wrapper's positional argument list is the captured value of each
of the same names in the same order — path-segment order, declaration
order, and argument-binding order coincide through the one shared list. -/
theorem c7_parameter_order (bare : String) (ps : List String)
    (reqParams : String → JSValue) :
    appendParams bare (some ps)
      = joinSegments ((if bare = "" then [] else [bare])
          ++ ps.map (fun a => ":" ++ a))
    ∧ dispatchArgs (some ps) reqParams = ps.map reqParams := by
  constructor
  · by_cases hb : bare = ""
    · subst hb
      cases ps with
      | nil => rfl
      | cons a ps =>
          show List.foldl paramStep "" (a :: ps) = _
          rw [List.foldl_cons, paramStep_empty_eq,
            foldl_paramStep ps (":" ++ a) (colon_append_ne_empty a)]
          simp [List.map_cons]
    · rw [if_neg hb]
      show List.foldl paramStep bare ps = _
      rw [foldl_paramStep ps bare hb]
      rfl
  · rfl

theorem addRouteWrapper_cache_stable (st : RegState) (j i : Nat)
    (w : Nat × Nat)
    (hw : st.classesLoaded.find? (fun it => it.1 == i) = some w) :
    (addRouteWrapper st j).1.classesLoaded.find? (fun it => it.1 == i) = some w := by
  cases hg : st.classesLoaded.find? (fun it => it.1 == j) with
  | some it => simpa [addRouteWrapper, hg] using hw
  | none =>
      simp only [addRouteWrapper, hg]
      exact find?_append_some _ _ _ w hw

/-- C8: registering a controller instance populates the process-wide
wrapper cache once: a second registration of the same instance (by
identity) returns the same state and the cached wrapper, the cache only
grows (never evicted), and an entry survives every later registration of
any instance. -/
theorem c8_wrapper_cache (st : RegState) (i j : Nat) :
    addRouteWrapper (addRouteWrapper st i).1 i = addRouteWrapper st i
    ∧ st.classesLoaded <+: (addRouteWrapper st i).1.classesLoaded
    ∧ ∀ w : Nat × Nat,
        (addRouteWrapper st i).1.classesLoaded.find? (fun it => it.1 == i) = some w →
        (addRouteWrapper (addRouteWrapper st i).1 j).1.classesLoaded.find?
          (fun it => it.1 == i) = some w := by
  refine ⟨?_, ?_, ?_⟩
  · cases hf : st.classesLoaded.find? (fun it => it.1 == i) with
    | some it => simp [addRouteWrapper, hf]
    | none =>
        have hnew : (st.classesLoaded ++ [(i, st.nextWrapper)]).find?
            (fun it => it.1 == i) = some (i, st.nextWrapper) := by
          rw [find?_append_none _ _ _ hf]
          simp [List.find?]
        simp [addRouteWrapper, hf, hnew]
  · cases hf : st.classesLoaded.find? (fun it => it.1 == i) with
    | some it => simp [addRouteWrapper, hf]
    | none => simp [addRouteWrapper, hf, List.prefix_append]
  · intro w hw
    exact addRouteWrapper_cache_stable (addRouteWrapper st i).1 j i w hw

/-- C8 witness: a concrete double registration of instance `5`, and the
survival of its cache entry across a later registration of instance `7`. -/
theorem c8_wrapper_cache_witness :
    addRouteWrapper (addRouteWrapper ⟨[], 0⟩ 5).1 5 = addRouteWrapper ⟨[], 0⟩ 5
    ∧ (addRouteWrapper (addRouteWrapper ⟨[], 0⟩ 5).1 7).1.classesLoaded.find?
        (fun it => it.1 == 5) = some (5, 0) :=
  ⟨(c8_wrapper_cache ⟨[], 0⟩ 5 7).1,
   (c8_wrapper_cache ⟨[], 0⟩ 5 7).2.2 (5, 0) (by decide)⟩

/-- C10: when the parameter extractor cannot parse a callable's source
text, it yields `none` (not a failure); the bare path then gets no capture
segment, dispatch passes zero arguments, and the route is still emitted
for a non-hidden flat action with that source. -/
theorem c10_extractor_total (src bare cn vb name : String)
    (reqParams : String → JSValue) (instId : Nat)
    (h : getParameterNames src = none) (hname : startsUnderscore name = false) :
    appendParams bare (getParameterNames src) = bare
    ∧ dispatchArgs (getParameterNames src) reqParams = []
    ∧ (setObjectActions cn vb instId [(name, JSProp.func ⟨src⟩)]).length = 1 := by
  refine ⟨?_, ?_, ?_⟩
  · rw [h]; rfl
  · rw [h]; rfl
  · simp [setObjectActions, hname]

/-- C10 witness: the arrow function `x => x` does not match the signature
pattern; its route keeps the bare path and dispatches no arguments. -/
theorem c10_extractor_total_witness :
    getParameterNames "x => x" = none
    ∧ appendParams "foo" (getParameterNames "x => x") = "foo"
    ∧ dispatchArgs (getParameterNames "x => x") (fun _ => JSValue.undefined) = []
    ∧ (setObjectActions "home" "home" 0 [("foo", JSProp.func ⟨"x => x"⟩)]).length = 1 :=
  ⟨by decide,
   (c10_extractor_total "x => x" "foo" "home" "home" "foo"
     (fun _ => JSValue.undefined) 0 (by decide) (by decide)).1,
   (c10_extractor_total "x => x" "foo" "home" "home" "foo"
     (fun _ => JSValue.undefined) 0 (by decide) (by decide)).2.1,
   (c10_extractor_total "x => x" "foo" "home" "home" "foo"
     (fun _ => JSValue.undefined) 0 (by decide) (by decide)).2.2⟩

/-- C1 (code bug evidence): for the flat action `getSomething` of
`homeController`, a `render()` call with no arguments delegates to the
collaborator's renderer with `home/getSomething` — the **raw** action name
(`routeData[3]`) — although the bare action name is `something`, so the
default view name is not the verb-stripped bare name the documentation
describes. -/
theorem c1_render_default_uses_raw_name :
    (render (dispatchRenderEnv
        (buildObjAction "home" "home" "getSomething" "function ()" 0)
        (JSValue.str "sess") none) RenderArg0.undef RenderArg1.undef).1
      = "home/getSomething"
    ∧ resolveBareName (jsTrim "getSomething") = "something"
    ∧ "home/getSomething" ≠ "home/" ++ resolveBareName (jsTrim "getSomething") := by
  refine ⟨by decide, by decide, by decide⟩

/-- C2 counterexample: in the flat-actions variant `addRoute` receives six
arguments, so `routeData[6]` is `undefined`; a `render({})` call in the
flat controller `home` sets `data.controllerName` to `undefined`, not to
the raw controller name `"home"`. -/
theorem c2_counterexample :
    setObjectActions "home" "home" 0 [("show", JSProp.func ⟨"function s()"⟩)]
      = [buildObjAction "home" "home" "show" "function s()" 0]
    ∧ objGet (render (dispatchRenderEnv
        (buildObjAction "home" "home" "show" "function s()" 0)
        (JSValue.str "sess") none) (RenderArg0.obj []) RenderArg1.undef).2
        "controllerName" = JSValue.undefined
    ∧ JSValue.undefined ≠ JSValue.str "home" := by
  refine ⟨by decide, by decide, by decide⟩

/-- C3 counterexample: `POSTUser` case-insensitively starts with the token
`post`, yet the resolver (whose pattern has no `i` flag) leaves the verb
at `get` and the name unchanged, instead of verb `post` and bare name
`user`. -/
theorem c3_counterexample :
    caseInsensitiveVerbPrefix "POSTUser" = some "post"
    ∧ getMethod "POSTUser" = "get"
    ∧ resolveBareName "POSTUser" = "POSTUser"
    ∧ ("get" : String) ≠ "post" ∧ ("POSTUser" : String) ≠ "user" := by
  refine ⟨by decide, by decide, by decide, by decide, by decide⟩

/-- C4 counterexample: a flat definition object with an own enumerable
function-valued property named `constructor` does get an action (and a
route `home/constructor`) — only the class-like variant filters the name
`constructor` out. -/
theorem c4_counterexample :
    (setObjectActions "home" "home" 0
        [("constructor", JSProp.func ⟨"function ()"⟩)]).map
        RouteDescriptor.actionName = ["constructor"]
    ∧ (["constructor"] : List String) ≠ [] := by
  refine ⟨by decide, by decide⟩

/-- C3 (amended): the verb-prefix match is case-sensitive.  For every
trimmed raw name other than the literal `index`: if the name starts with
one of the lowercase tokens, the verb is that token and the bare name is
the remainder with its new first character lower-cased; if no (lowercase)
token is a prefix, the verb is `get` and the name is unchanged. -/
theorem c3_verb_prefix_case_sensitive (s : String) (hs : s ≠ "index") :
    (∀ v, matchVerbPrefix s = some v →
      getMethod s = v ∧ resolveBareName s = lowerFirst (dropChars s v.length))
    ∧ (matchVerbPrefix s = none →
      getMethod s = "get" ∧ resolveBareName s = s) := by
  constructor
  · intro v hv
    have hmem : v ∈ httpVerbs := List.mem_of_find?_eq_some hv
    have hlow : strToLower v = v := by
      simp only [httpVerbs, List.mem_cons, List.not_mem_nil, or_false] at hmem
      rcases hmem with rfl | rfl | rfl | rfl | rfl <;> decide
    refine ⟨by simp [getMethod, hv, hlow], ?_⟩
    simp only [resolveBareName, if_neg hs, hv]
    by_cases hr : dropChars s v.length = ""
    · rw [if_pos hr, hr]; rfl
    · rw [if_neg hr]
  · intro hv
    exact ⟨by simp [getMethod, hv], by simp [resolveBareName, if_neg hs, hv]⟩

/-- C3 witness: the lowercase-prefixed name `postUser` resolves to verb
`post` and bare name `user`. -/
theorem c3_verb_prefix_case_sensitive_witness :
    getMethod "postUser" = "post" ∧ resolveBareName "postUser" = "user" :=
  (c3_verb_prefix_case_sensitive "postUser" (by decide)).1 "post" (by decide)

theorem buildObjAction_path_empty (cn vb name src : String) (i : Nat)
    (h : appendParams (resolveBareName (jsTrim name)) (getParameterNames src) = "") :
    (buildObjAction cn vb name src i).path = normalizeControllerName cn := by
  simp [buildObjAction, joinControllerPath, h, String.append_empty]

theorem buildFnAction_path_empty (cn vb name src : String) (i : Nat)
    (h : appendParams (resolveBareName (jsTrim name)) (getParameterNames src) = "") :
    (buildFnAction cn vb name src i).path = normalizeControllerName cn := by
  simp [buildFnAction, joinControllerPath, h, String.append_empty]

/-- C5: the raw name `index` resolves to verb `get` with empty bare name,
and a raw name that is exactly a verb token resolves to that verb with
empty bare name; for a parameterless action of either variant the
synthesized path is then just the controller segment (the controller
root), and for the `default` controller the registered path is `/`. -/
theorem c5_special_names (v cn vb : String) (hv : v ∈ httpVerbs)
    (hcn : cn ≠ "default") :
    getMethod (jsTrim v) = v ∧ resolveBareName (jsTrim v) = ""
    ∧ getMethod (jsTrim "index") = "get" ∧ resolveBareName (jsTrim "index") = ""
    ∧ (buildObjAction cn vb v "function f()" 0).path = cn
    ∧ (buildFnAction cn vb "index" "function f()" 0).path = cn
    ∧ registeredPath (buildObjAction "default" vb "index" "function f()" 0).path
        = "/" := by
  simp only [httpVerbs, List.mem_cons, List.not_mem_nil, or_false] at hv
  rcases hv with rfl | rfl | rfl | rfl | rfl <;>
    exact ⟨by decide, by decide, by decide, by decide,
      by rw [buildObjAction_path_empty _ _ _ _ _ (by decide)]
         simp [normalizeControllerName, hcn],
      by rw [buildFnAction_path_empty _ _ _ _ _ (by decide)]
         simp [normalizeControllerName, hcn],
      by rw [buildObjAction_path_empty _ _ _ _ _ (by decide)]
         decide⟩

/-- C5 witness: the action name `post` in controller `home`. -/
theorem c5_special_names_witness :
    getMethod (jsTrim "post") = "post" ∧ resolveBareName (jsTrim "post") = ""
    ∧ getMethod (jsTrim "index") = "get" ∧ resolveBareName (jsTrim "index") = ""
    ∧ (buildObjAction "home" "home" "post" "function f()" 0).path = "home"
    ∧ (buildFnAction "home" "home" "index" "function f()" 0).path = "home"
    ∧ registeredPath (buildObjAction "default" "home" "index" "function f()" 0).path
        = "/" :=
  c5_special_names "post" "home" "home" (by decide) (by decide)

/-- C4 (amended): in the flat-actions variant, the emitted actions are
exactly the enumerable function-valued properties whose name does not
start with the underscore marker, in property order — a property named
`constructor` is **not** excluded (that filter exists only in the
class-like variant) — and every emitted route shares the definition
object itself as its instance. -/
theorem c4_flat_actions_enumeration (cn vb : String) (d : ObjControllerDef) :
    (loadImplicitRoutesObject cn vb d).map RouteDescriptor.actionName
      = (d.props.filter (fun p => isFuncProp p.2 && !startsUnderscore p.1)).map
          Prod.fst
    ∧ (loadImplicitRoutesObject cn vb d).all
        (fun r => r.instanceId == d.id) = true := by
  constructor
  · show (setObjectActions cn vb d.id d.props).map RouteDescriptor.actionName = _
    induction d.props with
    | nil => rfl
    | cons hd tl ih =>
        cases hp : hd.2 with
        | func f =>
            by_cases hu : startsUnderscore hd.1 <;>
              simp [setObjectActions, List.filterMap_cons, List.filter_cons,
                hp, hu, isFuncProp, buildObjAction] <;>
              simpa [setObjectActions] using ih
        | value w =>
            simpa [setObjectActions, List.filterMap_cons, List.filter_cons,
              hp, isFuncProp] using ih
  · rw [List.all_eq_true]
    intro r hr
    simp only [loadImplicitRoutesObject, setObjectActions,
      List.mem_filterMap] at hr
    obtain ⟨p, _, hg⟩ := hr
    cases hpv : p.2 with
    | func f =>
        rw [hpv] at hg
        by_cases hu : startsUnderscore p.1
        · simp [hu] at hg
        · simp only [hu, if_neg, Bool.false_eq_true, not_false_eq_true,
            if_false] at hg
          cases hg
          simp [buildObjAction]
    | value w => rw [hpv] at hg; simp at hg

/-- C6: in both variants, an action whose raw name starts with the
underscore marker yields no route descriptor: prepending such a property
(or prototype name) changes nothing, and every emitted descriptor's raw
action name is non-hidden. -/
theorem c6_hidden_actions (cn vb : String) (i : Nat) (n : String)
    (p : JSProp) (props : List (String × JSProp)) (c : ClassDef) (j : Nat)
    (names : List String) (h : startsUnderscore n = true) :
    setObjectActions cn vb i ((n, p) :: props) = setObjectActions cn vb i props
    ∧ setFunctionActions cn vb j c (n :: names)
        = setFunctionActions cn vb j c names
    ∧ (setObjectActions cn vb i props).all
        (fun d => !startsUnderscore d.actionName) = true
    ∧ (setFunctionActions cn vb j c names).all
        (fun d => !startsUnderscore d.actionName) = true := by
  refine ⟨?_, ?_, ?_, ?_⟩
  · cases p with
    | func f => simp [setObjectActions, List.filterMap_cons, h]
    | value w => simp [setObjectActions, List.filterMap_cons]
  · cases hl : protoLookup c n with
    | some q =>
        cases q with
        | func f => simp [setFunctionActions, List.filterMap_cons, hl, h]
        | value w => simp [setFunctionActions, List.filterMap_cons, hl]
    | none => simp [setFunctionActions, List.filterMap_cons, hl]
  · rw [List.all_eq_true]
    intro r hr
    simp only [setObjectActions, List.mem_filterMap] at hr
    obtain ⟨q, _, hg⟩ := hr
    cases hqv : q.2 with
    | func f =>
        rw [hqv] at hg
        by_cases hu : startsUnderscore q.1
        · simp [hu] at hg
        · simp only [hu, Bool.false_eq_true, not_false_eq_true, if_neg,
            if_false] at hg
          cases hg
          simp [buildObjAction, hu]
    | value w => rw [hqv] at hg; simp at hg
  · rw [List.all_eq_true]
    intro r hr
    simp only [setFunctionActions, List.mem_filterMap] at hr
    obtain ⟨q, _, hg⟩ := hr
    cases hql : protoLookup c q with
    | some qq =>
        rw [hql] at hg
        cases qq with
        | func f =>
            by_cases hu : startsUnderscore q
            · simp [hu] at hg
            · simp only [hu, Bool.false_eq_true, not_false_eq_true, if_neg,
                if_false] at hg
              cases hg
              simp [buildFnAction, hu]
        | value w => simp at hg
    | none => rw [hql] at hg; simp at hg

/-- C6 witness: a hidden flat property `_hidden` and a hidden prototype
name produce nothing. -/
theorem c6_hidden_actions_witness :
    setObjectActions "c" "v" 0
        [("_hidden", JSProp.func ⟨"function ()"⟩),
         ("foo", JSProp.func ⟨"function ()"⟩)]
      = setObjectActions "c" "v" 0 [("foo", JSProp.func ⟨"function ()"⟩)]
    ∧ setFunctionActions "c" "v" 1 ⟨[]⟩ ["_hidden"]
        = setFunctionActions "c" "v" 1 ⟨[]⟩ [] :=
  ⟨(c6_hidden_actions "c" "v" 0 "_hidden" (JSProp.func ⟨"function ()"⟩)
      [("foo", JSProp.func ⟨"function ()"⟩)] ⟨[]⟩ 1 [] (by decide)).1,
   (c6_hidden_actions "c" "v" 0 "_hidden" (JSProp.func ⟨"function ()"⟩)
      [("foo", JSProp.func ⟨"function ()"⟩)] ⟨[]⟩ 1 [] (by decide)).2.1⟩

theorem objGet_fill_other (data : JSObj) (k k' : String) (v : JSValue)
    (h : k ≠ k') :
    objGet (if (objGet data k).truthy then data else objSet data k v) k'
      = objGet data k' := by
  split
  · rfl
  · exact objGet_objSet_ne data k k' v h

theorem objGet_fill_same (data : JSObj) (k : String) (v : JSValue) :
    objGet (if (objGet data k).truthy then data else objSet data k v) k
      = if (objGet data k).truthy then objGet data k else v := by
  split
  · rfl
  · exact objGet_objSet_same data k v

/-- C2 (amended): for a `render(data)` call, each of `controllerName`,
`actionName`, `session` is filled only when the caller-supplied value is
falsy, and a truthy caller value is kept.  `actionName` is filled with the
raw action name and `session` with the request's session, but
`controllerName` is filled with `routeData[6]`: `undefined` in the
flat-actions variant (which passes six arguments to `addRoute`) and the
**normalized** controller name (empty for `default`) in the class-like
variant. -/
theorem c2_render_fill_rules (env : RenderEnv) (o : JSObj) (cn vb : String)
    (i : Nat) (props : List (String × JSProp)) (c : ClassDef)
    (names : List String) :
    objGet (render env (.obj o) .undef).2 "controllerName"
      = (if (objGet o "controllerName").truthy then objGet o "controllerName"
         else env.controllerNameArg)
    ∧ objGet (render env (.obj o) .undef).2 "actionName"
      = (if (objGet o "actionName").truthy then objGet o "actionName"
         else JSValue.str env.actionName)
    ∧ objGet (render env (.obj o) .undef).2 "session"
      = (if (objGet o "session").truthy then objGet o "session"
         else env.session)
    ∧ (setObjectActions cn vb i props).all
        (fun d => d.controllerNameArg == JSValue.undefined) = true
    ∧ (setFunctionActions cn vb i c names).all
        (fun d => d.controllerNameArg
          == JSValue.str (normalizeControllerName cn)) = true := by
  refine ⟨?_, ?_, ?_, ?_, ?_⟩
  · show objGet (renderFill env o) "controllerName" = _
    simp only [renderFill]
    cases hf : env.flash <;> simp only [hf]
    · rw [objGet_fill_other _ _ _ _ (by decide),
        objGet_fill_other _ _ _ _ (by decide), objGet_fill_same]
    · rw [objGet_objSet_ne _ _ _ _ (by decide),
        objGet_objSet_ne _ _ _ _ (by decide),
        objGet_objSet_ne _ _ _ _ (by decide),
        objGet_fill_other _ _ _ _ (by decide),
        objGet_fill_other _ _ _ _ (by decide), objGet_fill_same]
  · show objGet (renderFill env o) "actionName" = _
    simp only [renderFill]
    cases hf : env.flash <;> simp only [hf]
    · rw [objGet_fill_other _ _ _ _ (by decide), objGet_fill_same,
        objGet_fill_other _ _ _ _ (by decide)]
    · rw [objGet_objSet_ne _ _ _ _ (by decide),
        objGet_objSet_ne _ _ _ _ (by decide),
        objGet_objSet_ne _ _ _ _ (by decide),
        objGet_fill_other _ _ _ _ (by decide), objGet_fill_same,
        objGet_fill_other _ _ _ _ (by decide)]
  · show objGet (renderFill env o) "session" = _
    simp only [renderFill]
    cases hf : env.flash <;> simp only [hf]
    · rw [objGet_fill_same, objGet_fill_other _ _ _ _ (by decide),
        objGet_fill_other _ _ _ _ (by decide)]
    · rw [objGet_objSet_ne _ _ _ _ (by decide),
        objGet_objSet_ne _ _ _ _ (by decide),
        objGet_objSet_ne _ _ _ _ (by decide), objGet_fill_same,
        objGet_fill_other _ _ _ _ (by decide),
        objGet_fill_other _ _ _ _ (by decide)]
  · rw [List.all_eq_true]
    intro r hr
    simp only [setObjectActions, List.mem_filterMap] at hr
    obtain ⟨q, _, hg⟩ := hr
    cases hqv : q.2 with
    | func f =>
        rw [hqv] at hg
        by_cases hu : startsUnderscore q.1
        · simp [hu] at hg
        · simp only [hu, Bool.false_eq_true, not_false_eq_true, if_neg,
            if_false] at hg
          cases hg
          simp [buildObjAction]
    | value w => rw [hqv] at hg; simp at hg
  · rw [List.all_eq_true]
    intro r hr
    simp only [setFunctionActions, List.mem_filterMap] at hr
    obtain ⟨q, _, hg⟩ := hr
    cases hql : protoLookup c q with
    | some qq =>
        rw [hql] at hg
        cases qq with
        | func f =>
            by_cases hu : startsUnderscore q
            · simp [hu] at hg
            · simp only [hu, Bool.false_eq_true, not_false_eq_true, if_neg,
                if_false] at hg
              cases hg
              simp [buildFnAction]
        | value w => simp at hg
    | none => rw [hql] at hg; simp at hg

/-- C9: when the request has a flash capability, `render` overwrites
`data.success`, `data.error`, `data.info` with the flash reader's values
for those keys, whatever the caller supplied; with no flash capability,
those keys keep exactly the caller's values. -/
theorem c9_flash_overwrite (env : RenderEnv) (o : JSObj) :
    objGet (render env (.obj o) .undef).2 "success"
      = (match env.flash with
         | some f => f "success"
         | none => objGet o "success")
    ∧ objGet (render env (.obj o) .undef).2 "error"
      = (match env.flash with
         | some f => f "error"
         | none => objGet o "error")
    ∧ objGet (render env (.obj o) .undef).2 "info"
      = (match env.flash with
         | some f => f "info"
         | none => objGet o "info") := by
  refine ⟨?_, ?_, ?_⟩ <;>
  · show objGet (renderFill env o) _ = _
    simp only [renderFill]
    cases hf : env.flash <;> simp only [hf]
    · rw [objGet_fill_other _ _ _ _ (by decide),
        objGet_fill_other _ _ _ _ (by decide),
        objGet_fill_other _ _ _ _ (by decide)]
    · first
      | rw [objGet_objSet_ne _ _ _ _ (by decide),
          objGet_objSet_ne _ _ _ _ (by decide), objGet_objSet_same]
      | rw [objGet_objSet_ne _ _ _ _ (by decide), objGet_objSet_same]
      | rw [objGet_objSet_same]

end ExpressMVCRouter
